import Mathlib

/-!
Shallow embedding of the work-tuimer time-tracking core
(models, file store, store manager, timer state machine, undo history),
translated from the Rust sources under src/.
-/

namespace WorkTuimer

/-- A calendar date (`time::Date`), identified by year, month and day.
The program only compares dates and uses them as file keys. -/
structure Date where
  year : Int
  month : Nat
  day : Nat
deriving DecidableEq, Repr

/-- src/models/time_point.rs: `TimePoint { hour: u8, minute: u8 }`. -/
structure TimePoint where
  hour : Nat
  minute : Nat
deriving DecidableEq, Repr

/-- `TimePoint::new`: fails unless `hour < 24` and `minute < 60`. -/
def TimePoint.new (hour minute : Nat) : Except String TimePoint :=
  if hour ≥ 24 then .error "Hour must be 0-23"
  else if minute ≥ 60 then .error "Minute must be 0-59"
  else .ok ⟨hour, minute⟩

/-- `TimePoint::to_minutes_since_midnight`. -/
def TimePoint.to_minutes_since_midnight (t : TimePoint) : Nat :=
  t.hour * 60 + t.minute

/-- src/models/work_record.rs: `WorkRecord`. -/
structure WorkRecord where
  id : Nat
  name : String
  start : TimePoint
  «end» : TimePoint
  total_minutes : Nat
  description : String
deriving DecidableEq, Repr

/-- `WorkRecord::calculate_duration`: wrap-aware minutes from `start` to `end`. -/
def WorkRecord.calculate_duration (start «end» : TimePoint) : Nat :=
  let start_mins := start.to_minutes_since_midnight
  let end_mins := «end».to_minutes_since_midnight
  if end_mins ≥ start_mins then end_mins - start_mins
  else (24 * 60 - start_mins) + end_mins

/-- `WorkRecord::new`: derives `total_minutes`, empty description. -/
def WorkRecord.new (id : Nat) (name : String) (start «end» : TimePoint) : WorkRecord :=
  { id, name, start, «end»,
    total_minutes := WorkRecord.calculate_duration start «end»,
    description := "" }

/-- `WorkRecord::update_duration`: recompute `total_minutes` from `start`/`end`. -/
def WorkRecord.update_duration (r : WorkRecord) : WorkRecord :=
  { r with total_minutes := WorkRecord.calculate_duration r.start r.«end» }

/-- `HashMap<u32, WorkRecord>` modelled as an association list
(the map's iteration order is irrelevant to the program's behaviour). -/
abbrev RecordMap := List (Nat × WorkRecord)

/-- `HashMap::get`. -/
def RecordMap.get (m : RecordMap) (k : Nat) : Option WorkRecord :=
  (m.find? (fun p => p.1 == k)).map (·.2)

/-- `HashMap::insert`: replaces the value at an existing key. -/
def RecordMap.insert (m : RecordMap) (k : Nat) (v : WorkRecord) : RecordMap :=
  m.filter (fun p => p.1 != k) ++ [(k, v)]

/-- `HashMap::remove`: returns the removed value, if any. -/
def RecordMap.remove (m : RecordMap) (k : Nat) : Option WorkRecord × RecordMap :=
  (RecordMap.get m k, m.filter (fun p => p.1 != k))

/-- `HashMap::get_mut` followed by mutation of the found record in place. -/
def RecordMap.modify (m : RecordMap) (k : Nat) (f : WorkRecord → WorkRecord) : RecordMap :=
  m.map (fun p => if p.1 == k then (p.1, f p.2) else p)

/-- src/models/day_data.rs: `DayData { date, last_id, work_records }`. -/
structure DayData where
  date : Date
  last_id : Nat
  work_records : RecordMap
deriving DecidableEq, Repr

/-- `DayData::new`: empty day. -/
def DayData.new (date : Date) : DayData :=
  { date, last_id := 0, work_records := [] }

/-- `DayData::add_record`: raises `last_id` to the record's id if larger, upserts by id. -/
def DayData.add_record (d : DayData) (record : WorkRecord) : DayData :=
  { d with
    last_id := if record.id > d.last_id then record.id else d.last_id,
    work_records := d.work_records.insert record.id record }

/-- `DayData::remove_record`. -/
def DayData.remove_record (d : DayData) (id : Nat) : Option WorkRecord × DayData :=
  let (r, m) := d.work_records.remove id
  (r, { d with work_records := m })

/-- `DayData::next_id`: increments `last_id` and returns it. -/
def DayData.next_id (d : DayData) : Nat × DayData :=
  (d.last_id + 1, { d with last_id := d.last_id + 1 })

/-- src/timer/mod.rs: `TimerStatus`. -/
inductive TimerStatus
  | Running
  | Paused
  | Stopped
deriving DecidableEq, Repr

/-- A `time::OffsetDateTime`, abstracted to the projections the program uses:
its calendar date, its hour/minute of day, and its absolute position on the
time line in nanoseconds (used for instant subtraction). -/
structure OffsetDateTime where
  date : Date
  hour : Nat
  minute : Nat
  epochNanos : Int
deriving DecidableEq, Repr

/-- src/timer/mod.rs: `TimerState` (all fields of the persisted timer). -/
structure TimerState where
  id : Option Nat
  task_name : String
  description : Option String
  start_time : OffsetDateTime
  end_time : Option OffsetDateTime
  date : Date
  status : TimerStatus
  paused_duration_secs : Int
  paused_at : Option OffsetDateTime
  created_at : OffsetDateTime
  updated_at : OffsetDateTime
  source_record_id : Option Nat
  source_record_date : Option Date
deriving DecidableEq, Repr

/-- The data directory: one (well-formed) JSON file per day, keyed by date,
carrying its filesystem mtime, plus the single `running_timer.json` slot. -/
structure Disk where
  dayFiles : List (Date × DayData × Nat)
  timerFile : Option TimerState
deriving DecidableEq, Repr

namespace Storage

/-- `Storage::load`: the day's file contents, or an empty `DayData` when absent. -/
def load (disk : Disk) (date : Date) : DayData :=
  match disk.dayFiles.find? (fun e => e.1 == date) with
  | some e => e.2.1
  | none => DayData.new date

/-- `Storage::save`: whole-file overwrite of the day keyed by `day_data.date`;
`mtime` is the filesystem timestamp the write ends up with. -/
def save (disk : Disk) (day_data : DayData) (mtime : Nat) : Disk :=
  { disk with
    dayFiles := disk.dayFiles.filter (fun e => e.1 != day_data.date)
      ++ [(day_data.date, day_data, mtime)] }

/-- `Storage::get_file_modified_time`: `None` when the file does not exist. -/
def get_file_modified_time (disk : Disk) (date : Date) : Option Nat :=
  (disk.dayFiles.find? (fun e => e.1 == date)).map (·.2.2)

/-- `Storage::load_active_timer`: `None` when `running_timer.json` is absent. -/
def load_active_timer (disk : Disk) : Option TimerState :=
  disk.timerFile

/-- `Storage::save_active_timer`. -/
def save_active_timer (disk : Disk) (timer : TimerState) : Disk :=
  { disk with timerFile := some timer }

/-- `Storage::clear_active_timer`: deletes `running_timer.json` if present. -/
def clear_active_timer (disk : Disk) : Disk :=
  { disk with timerFile := none }

end Storage

/-- The error kinds the modelled operations can surface
(the Rust code uses `anyhow` messages; each constructor is one message). -/
inductive TError
  | noActiveTimer
  | timerAlreadyRunning
  | alreadyPaused
  | canOnlyPauseRunning
  | canOnlyResumePaused
  | invalidTime (msg : String)
  | notStoppedTimer
  | missingEndTime
  | emptyName
  | recordNotFound (id : Nat)
deriving DecidableEq, Repr

/-- The spec's `InvalidTransition` kind groups the three transition-guard messages. -/
def TError.isInvalidTransition : TError → Bool
  | .alreadyPaused => true
  | .canOnlyPauseRunning => true
  | .canOnlyResumePaused => true
  | _ => false

namespace TimerManager

/-- `TimerManager::start`. Rust's `&self` file-system side effects are made
explicit: every operation returns the resulting disk next to its `Result`.
`now` stands for `OffsetDateTime::now_local()`. -/
def start (disk : Disk) (now : OffsetDateTime) (task_name : String)
    (description : Option String) (source_record_id : Option Nat)
    (source_record_date : Option Date) : Disk × Except TError TimerState :=
  if (Storage.load_active_timer disk).isSome then
    (disk, .error .timerAlreadyRunning)
  else
    let timer : TimerState :=
      { id := none, task_name, description,
        start_time := now, end_time := none, date := now.date,
        status := .Running, paused_duration_secs := 0, paused_at := none,
        created_at := now, updated_at := now,
        source_record_id, source_record_date }
    (Storage.save_active_timer disk timer, .ok timer)

/-- `TimerManager::to_work_record`: converts a stopped timer into the
`WorkRecord` view (placeholder id 1). -/
def to_work_record (timer : TimerState) : Except TError WorkRecord :=
  if timer.status ≠ .Stopped then .error .notStoppedTimer
  else
    match timer.end_time with
    | none => .error .missingEndTime
    | some end_time =>
      match TimePoint.new timer.start_time.hour timer.start_time.minute with
      | .error e => .error (.invalidTime e)
      | .ok start_timepoint =>
        match TimePoint.new end_time.hour end_time.minute with
        | .error e => .error (.invalidTime e)
        | .ok end_timepoint =>
          let record := WorkRecord.new 1 timer.task_name start_timepoint end_timepoint
          .ok (match timer.description with
               | some d => { record with description := d }
               | none => record)

/-- `TimerManager::stop`: targets `source_record_date` (else the start date),
updates the source record in place when found, otherwise inserts a new record
with the day's next id; saves the day and deletes the timer file.
`mtime` is the timestamp of the day-file write. -/
def stop (disk : Disk) (now : OffsetDateTime) (mtime : Nat) :
    Disk × Except TError WorkRecord :=
  match Storage.load_active_timer disk with
  | none => (disk, .error .noActiveTimer)
  | some timer0 =>
    let target_date := timer0.source_record_date.getD timer0.start_time.date
    let timer : TimerState :=
      { timer0 with end_time := some now, status := .Stopped, updated_at := now }
    let day_data := Storage.load disk target_date
    -- the branch creating a new record (shared by the no-source and
    -- source-not-found paths; the Rust code duplicates it textually)
    let insert_new : Disk × Option TError :=
      match to_work_record timer with
      | .error e => (disk, some e)
      | .ok work_record0 =>
        let (new_id, day_data2) := day_data.next_id
        let work_record := { work_record0 with id := new_id }
        let day_data3 := day_data2.add_record work_record
        (Storage.clear_active_timer (Storage.save disk day_data3 mtime), none)
    let step : Disk × Option TError :=
      match timer.source_record_id with
      | some source_id =>
        match day_data.work_records.get source_id with
        | some _ =>
          match TimePoint.new now.hour now.minute with
          | .error e => (disk, some (.invalidTime e))
          | .ok end_timepoint =>
            let day_data2 :=
              { day_data with
                work_records := day_data.work_records.modify source_id
                  (fun record =>
                    WorkRecord.update_duration { record with «end» := end_timepoint }) }
            (Storage.clear_active_timer (Storage.save disk day_data2 mtime), none)
        | none => insert_new
      | none => insert_new
    match step with
    | (disk2, some e) => (disk2, .error e)
    | (disk2, none) =>
      match to_work_record timer with
      | .error e => (disk2, .error e)
      | .ok work_record => (disk2, .ok work_record)

/-- `TimerManager::pause`. -/
def pause (disk : Disk) (now : OffsetDateTime) : Disk × Except TError TimerState :=
  match Storage.load_active_timer disk with
  | none => (disk, .error .noActiveTimer)
  | some timer =>
    if timer.status = .Paused then (disk, .error .alreadyPaused)
    else if timer.status ≠ .Running then (disk, .error .canOnlyPauseRunning)
    else
      let timer' : TimerState :=
        { timer with paused_at := some now, status := .Paused, updated_at := now }
      (Storage.save_active_timer disk timer', .ok timer')

/-- `(now - paused_at).whole_seconds()`: truncating division of the
nanosecond difference (the `time` crate truncates toward zero). -/
def wholeSeconds (nanos : Int) : Int :=
  nanos.tdiv 1000000000

/-- `TimerManager::resume`. -/
def resume (disk : Disk) (now : OffsetDateTime) : Disk × Except TError TimerState :=
  match Storage.load_active_timer disk with
  | none => (disk, .error .noActiveTimer)
  | some timer =>
    if timer.status ≠ .Paused then (disk, .error .canOnlyResumePaused)
    else
      let pd :=
        match timer.paused_at with
        | some paused_at =>
          timer.paused_duration_secs + wholeSeconds (now.epochNanos - paused_at.epochNanos)
        | none => timer.paused_duration_secs
      let timer' : TimerState :=
        { timer with paused_duration_secs := pd, paused_at := none,
                     status := .Running, updated_at := now }
      (Storage.save_active_timer disk timer', .ok timer')

end TimerManager

/-- `2^64`, the modulus of Rust's `u64`. -/
def U64_MOD : Nat := 18446744073709551616

/-- An `as u64` cast of a signed integer: reduction modulo `2^64`
(negative values wrap around). -/
def u64cast (x : Int) : Nat :=
  (x % (U64_MOD : Int)).toNat

/-- `std::time::Duration`: whole seconds (a `u64`) plus a sub-second
nanosecond part below `10^9`. -/
structure StdDuration where
  secs : Nat
  nanos : Nat
deriving DecidableEq, Repr

namespace StdDuration

/-- `Duration::ZERO`. -/
def zero : StdDuration := ⟨0, 0⟩

/-- `Duration::from_secs`. -/
def from_secs (s : Nat) : StdDuration := ⟨s, 0⟩

/-- `Duration::from_nanos`. -/
def from_nanos (n : Nat) : StdDuration := ⟨n / 1000000000, n % 1000000000⟩

/-- Total length in nanoseconds. -/
def toNanos (d : StdDuration) : Nat := d.secs * 1000000000 + d.nanos

/-- `Duration + Duration`: panics (here `none`) when the seconds overflow `u64`. -/
def add (d1 d2 : StdDuration) : Option StdDuration :=
  let n := d1.nanos + d2.nanos
  let s := d1.secs + d2.secs + n / 1000000000
  if s < U64_MOD then some ⟨s, n % 1000000000⟩ else none

/-- `Duration::checked_sub`. -/
def checked_sub (d1 d2 : StdDuration) : Option StdDuration :=
  if d2.toNanos ≤ d1.toNanos then
    some ⟨(d1.toNanos - d2.toNanos) / 1000000000, (d1.toNanos - d2.toNanos) % 1000000000⟩
  else none

end StdDuration

namespace TimerManager

/-- `TimerManager::get_elapsed_duration`: the end point is `paused_at` when
paused (falling back to `now`), else `now`; the signed elapsed interval is
rebuilt as `from_secs(whole_seconds as u64) + from_nanos(subsec_nanoseconds
as u64)` (both casts wrap for negative values; `none` models the panic of an
overflowing duration addition), then `paused_duration_secs as u64` seconds
are subtracted with `checked_sub(..).unwrap_or(ZERO)`. -/
def get_elapsed_duration (timer : TimerState) (now : OffsetDateTime) :
    Option StdDuration :=
  let end_point := if timer.status = .Paused then timer.paused_at.getD now else now
  let elapsed : Int := end_point.epochNanos - timer.start_time.epochNanos
  let paused_duration_std := StdDuration.from_secs (u64cast timer.paused_duration_secs)
  match StdDuration.add
      (StdDuration.from_secs (u64cast (elapsed.tdiv 1000000000)))
      (StdDuration.from_nanos (u64cast (elapsed.tmod 1000000000))) with
  | none => none
  | some elapsed_std =>
    some ((elapsed_std.checked_sub paused_duration_std).getD StdDuration.zero)

end TimerManager

/-- src/storage/mod.rs: `StorageManager`'s in-memory bookkeeping, the
`date -> last known mtime` map (the wrapped `Storage` holds only the data
directory, which the `Disk` argument of each operation stands for). -/
structure StorageManager where
  file_modified_times : List (Date × Option Nat)
deriving DecidableEq, Repr

namespace StorageManager

/-- `HashMap::get` on the tracking map: `none` means the date was never tracked. -/
def lookup (sm : StorageManager) (date : Date) : Option (Option Nat) :=
  (sm.file_modified_times.find? (fun p => p.1 == date)).map (·.2)

/-- `HashMap::insert` on the tracking map. -/
def track (sm : StorageManager) (date : Date) (mtime : Option Nat) : StorageManager :=
  { file_modified_times :=
      sm.file_modified_times.filter (fun p => p.1 != date) ++ [(date, mtime)] }

/-- `StorageManager::load_with_tracking`. -/
def load_with_tracking (disk : Disk) (sm : StorageManager) (date : Date) :
    StorageManager × DayData :=
  let data := Storage.load disk date
  let modified_time := Storage.get_file_modified_time disk date
  (sm.track date modified_time, data)

/-- `StorageManager::check_and_reload`: never-tracked dates always reload;
otherwise reload (and re-track) exactly when the file's current mtime differs
from the stored one. -/
def check_and_reload (disk : Disk) (sm : StorageManager) (date : Date) :
    StorageManager × Option DayData :=
  let current_modified := Storage.get_file_modified_time disk date
  match sm.lookup date with
  | none =>
    (sm.track date current_modified, some (Storage.load disk date))
  | some last_known =>
    if current_modified ≠ last_known then
      (sm.track date current_modified, some (Storage.load disk date))
    else
      (sm, none)

/-- `StorageManager::save`: delegate to the file store, then refresh the
known mtime for that date. -/
def save (disk : Disk) (sm : StorageManager) (day_data : DayData) (mtime : Nat) :
    Disk × StorageManager :=
  let disk2 := Storage.save disk day_data mtime
  let modified_time := Storage.get_file_modified_time disk2 day_data.date
  (disk2, sm.track day_data.date modified_time)

/-- `StorageManager::remove_record`: load → remove (fails with
`RecordNotFound` before anything is written) → save → re-track. -/
def remove_record (disk : Disk) (sm : StorageManager) (date : Date) (id : Nat)
    (mtime : Nat) : Disk × StorageManager × Except TError WorkRecord :=
  let day_data := Storage.load disk date
  match day_data.work_records.remove id with
  | (none, _) => (disk, sm, .error (.recordNotFound id))
  | (some record, m) =>
    let day_data2 := { day_data with work_records := m }
    let disk2 := Storage.save disk day_data2 mtime
    let modified_time := Storage.get_file_modified_time disk2 date
    (disk2, sm.track date modified_time, .ok record)

end StorageManager

/-- src/ui/history.rs: `MAX_HISTORY_DEPTH`. -/
def MAX_HISTORY_DEPTH : Nat := 50

/-- src/ui/history.rs: `History`, two stacks of whole-day snapshots.
The `Vec`s grow at the list's tail (push = append, evict = drop the head). -/
structure History where
  undo_stack : List DayData
  redo_stack : List DayData
deriving DecidableEq, Repr

namespace History

/-- `History::new`. -/
def new : History := ⟨[], []⟩

/-- `History::push`: evict the oldest entry at the depth bound, append the
snapshot, clear the redo stack. -/
def push (h : History) (state : DayData) : History :=
  let s := if h.undo_stack.length ≥ MAX_HISTORY_DEPTH
           then h.undo_stack.drop 1 else h.undo_stack
  ⟨s ++ [state], []⟩

/-- `History::undo`: pop the undo stack; on success the current state moves
to the redo stack. -/
def undo (h : History) (current_state : DayData) : Option DayData × History :=
  match h.undo_stack.getLast? with
  | some previous_state =>
    (some previous_state, ⟨h.undo_stack.dropLast, h.redo_stack ++ [current_state]⟩)
  | none => (none, h)

/-- `History::redo`: mirror image of `undo`. -/
def redo (h : History) (current_state : DayData) : Option DayData × History :=
  match h.redo_stack.getLast? with
  | some next_state =>
    (some next_state, ⟨h.undo_stack ++ [current_state], h.redo_stack.dropLast⟩)
  | none => (none, h)

/-- Push a list of snapshots in order. -/
def pushAll (h : History) (states : List DayData) : History :=
  states.foldl push h

/-- Perform one `undo` per supplied current state, collecting the results. -/
def undoSeq (h : History) (currents : List DayData) : History × List (Option DayData) :=
  match currents with
  | [] => (h, [])
  | c :: cs =>
    let (r, h') := h.undo c
    let (h'', rs) := undoSeq h' cs
    (h'', r :: rs)

end History

/-- Rust's `str::trim`: strip leading and trailing whitespace
(executable model; Lean's own `String.trim` does not reduce in the kernel). -/
def strTrim (s : String) : String :=
  ⟨((s.data.dropWhile Char.isWhitespace).reverse.dropWhile Char.isWhitespace).reverse⟩

namespace Cli

/-- src/cli/mod.rs `handle_start`: the front-end trims the task name and
rejects a blank result before delegating to `TimerManager::start`
(output formatting omitted). -/
def handle_start (disk : Disk) (now : OffsetDateTime) (task : String)
    (description : Option String) : Disk × Except TError TimerState :=
  let task := strTrim task
  if task = "" then (disk, .error .emptyName)
  else TimerManager.start disk now task description none none

end Cli

/-- One front-end invocation of a timer-lifecycle operation, with the wall
clock (`now`) and the written file's mtime as oracle inputs. -/
inductive TimerOp
  | start (now : OffsetDateTime) (task_name : String) (description : Option String)
      (source_record_id : Option Nat) (source_record_date : Option Date)
  | pause (now : OffsetDateTime)
  | resume (now : OffsetDateTime)
  | stop (now : OffsetDateTime) (mtime : Nat)

/-- The disk after one timer operation (errors leave the disk as the
operation left it). -/
def TimerOp.apply (disk : Disk) : TimerOp → Disk
  | .start now n d si sd => (TimerManager.start disk now n d si sd).1
  | .pause now => (TimerManager.pause disk now).1
  | .resume now => (TimerManager.resume disk now).1
  | .stop now mtime => (TimerManager.stop disk now mtime).1

/-- The disk after a sequence of timer operations. -/
def applyTimerOps (disk : Disk) : List TimerOp → Disk
  | [] => disk
  | op :: rest => applyTimerOps (op.apply disk) rest

/-- One mutating `DayData` operation. -/
inductive DayOp
  | add (record : WorkRecord)
  | remove (id : Nat)
  | nextId

/-- Apply one `DayData` operation. -/
def DayOp.apply (d : DayData) : DayOp → DayData
  | .add record => d.add_record record
  | .remove id => (d.remove_record id).2
  | .nextId => (d.next_id).2

/-- Apply a sequence of `DayData` operations. -/
def applyDayOps (d : DayData) : List DayOp → DayData
  | [] => d
  | op :: rest => applyDayOps (op.apply d) rest

/-- The ids handed out by `N` successive `next_id` calls, in order. -/
def nextIds (d : DayData) : Nat → List Nat
  | 0 => []
  | n + 1 =>
    let (i, d') := d.next_id
    i :: nextIds d' n

/-! ### Association-list helper lemmas -/

theorem find?_cons_key {α β : Type} [BEq α] [LawfulBEq α] [DecidableEq α]
    (a : α × β) (l : List (α × β)) (j : α) :
    (a :: l).find? (fun p => p.1 == j)
      = if a.1 = j then some a else l.find? (fun p => p.1 == j) := by
  by_cases h : a.1 = j
  · rw [List.find?_cons_of_pos _ (by simp [h]), if_pos h]
  · rw [List.find?_cons_of_neg _ (by simp [h]), if_neg h]

theorem find?_filter_ne_self {α β : Type} [BEq α] [LawfulBEq α] [DecidableEq α]
    (l : List (α × β)) (k : α) (v : β) :
    ((l.filter (fun p => p.1 != k)) ++ [(k, v)]).find? (fun p => p.1 == k)
      = some (k, v) := by
  induction l with
  | nil => simp [find?_cons_key]
  | cons a l ih =>
    by_cases h : a.1 = k
    · rw [List.filter_cons, if_neg (by simp [h])]
      exact ih
    · rw [List.filter_cons, if_pos (by simp [h]), List.cons_append, find?_cons_key,
        if_neg h]
      exact ih

theorem find?_filter_ne_other {α β : Type} [BEq α] [LawfulBEq α] [DecidableEq α]
    (l : List (α × β)) (k j : α) (v : β) (hjk : j ≠ k) :
    ((l.filter (fun p => p.1 != k)) ++ [(k, v)]).find? (fun p => p.1 == j)
      = l.find? (fun p => p.1 == j) := by
  induction l with
  | nil => simp [find?_cons_key, Ne.symm hjk]
  | cons a l ih =>
    by_cases h : a.1 = k
    · rw [List.filter_cons, if_neg (by simp [h]), find?_cons_key,
        if_neg (by rw [h]; exact Ne.symm hjk)]
      exact ih
    · rw [List.filter_cons, if_pos (by simp [h]), List.cons_append, find?_cons_key,
        find?_cons_key]
      by_cases haj : a.1 = j
      · rw [if_pos haj, if_pos haj]
      · rw [if_neg haj, if_neg haj]
        exact ih

theorem RecordMap.get_cons (a : Nat × WorkRecord) (m : RecordMap) (k : Nat) :
    RecordMap.get (a :: m) k = if a.1 = k then some a.2 else RecordMap.get m k := by
  unfold RecordMap.get
  rw [find?_cons_key]
  by_cases h : a.1 = k
  · rw [if_pos h, if_pos h]; rfl
  · rw [if_neg h, if_neg h]

theorem RecordMap.get_insert_self (m : RecordMap) (k : Nat) (v : WorkRecord) :
    (m.insert k v).get k = some v := by
  rw [RecordMap.insert, RecordMap.get, find?_filter_ne_self]; rfl

theorem RecordMap.get_insert_other (m : RecordMap) (k j : Nat) (v : WorkRecord)
    (hjk : j ≠ k) : (m.insert k v).get j = m.get j := by
  rw [RecordMap.insert, RecordMap.get, find?_filter_ne_other _ _ _ _ hjk, RecordMap.get]

theorem RecordMap.modify_cons (a : Nat × WorkRecord) (m : RecordMap) (k : Nat)
    (f : WorkRecord → WorkRecord) :
    RecordMap.modify (a :: m) k f
      = (if a.1 = k then (a.1, f a.2) else a) :: RecordMap.modify m k f := by
  rw [RecordMap.modify, List.map_cons, RecordMap.modify]
  by_cases h : a.1 = k
  · rw [if_pos (by simp [h]), if_pos h]
  · rw [if_neg (by simp [h]), if_neg h]

theorem RecordMap.get_modify_self (m : RecordMap) (k : Nat)
    (f : WorkRecord → WorkRecord) (r : WorkRecord) (h : m.get k = some r) :
    (m.modify k f).get k = some (f r) := by
  induction m with
  | nil => simp [RecordMap.get] at h
  | cons a m ih =>
    rw [RecordMap.get_cons] at h
    rw [RecordMap.modify_cons]
    by_cases ha : a.1 = k
    · rw [if_pos ha] at h
      rw [if_pos ha, RecordMap.get_cons, if_pos ha]
      exact congrArg (some ∘ f) (Option.some.inj h)
    · rw [if_neg ha] at h
      rw [if_neg ha, RecordMap.get_cons, if_neg ha]
      exact ih h

theorem RecordMap.get_modify_other (m : RecordMap) (k j : Nat)
    (f : WorkRecord → WorkRecord) (hjk : j ≠ k) :
    (m.modify k f).get j = m.get j := by
  induction m with
  | nil => rfl
  | cons a m ih =>
    rw [RecordMap.modify_cons, RecordMap.get_cons, RecordMap.get_cons]
    by_cases ha : a.1 = k
    · rw [if_pos ha]
      rw [if_neg (by rw [ha]; exact Ne.symm hjk), if_neg (by rw [ha]; exact Ne.symm hjk)]
      exact ih
    · rw [if_neg ha]
      by_cases haj : a.1 = j
      · rw [if_pos haj, if_pos haj]
      · rw [if_neg haj, if_neg haj]
        exact ih

theorem RecordMap.length_modify (m : RecordMap) (k : Nat)
    (f : WorkRecord → WorkRecord) : (m.modify k f).length = m.length := by
  rw [RecordMap.modify, List.length_map]

/-! ### C7: duration calculation -/

/-- C7: for all clock times `start` and `end` (valid hour/minute fields),
`calculate_duration start end` lies in `[0, 1439]` and equals `end - start`
in minutes since midnight when `end ≥ start`, else `(1440 - start) + end`;
and both the `WorkRecord` constructor and `update_duration` set
`total_minutes` to exactly this value. -/
theorem calculate_duration_spec (s e : TimePoint)
    (hsh : s.hour < 24) (hsm : s.minute < 60)
    (heh : e.hour < 24) (hem : e.minute < 60) :
    WorkRecord.calculate_duration s e ≤ 1439 ∧
    (s.to_minutes_since_midnight ≤ e.to_minutes_since_midnight →
      WorkRecord.calculate_duration s e
        = e.to_minutes_since_midnight - s.to_minutes_since_midnight) ∧
    (e.to_minutes_since_midnight < s.to_minutes_since_midnight →
      WorkRecord.calculate_duration s e
        = (1440 - s.to_minutes_since_midnight) + e.to_minutes_since_midnight) ∧
    (∀ id name, (WorkRecord.new id name s e).total_minutes
        = WorkRecord.calculate_duration s e) ∧
    (∀ r : WorkRecord, r.update_duration.total_minutes
        = WorkRecord.calculate_duration r.start r.«end») := by
  refine ⟨?_, ?_, ?_, fun id name => rfl, fun r => rfl⟩ <;>
    simp only [WorkRecord.calculate_duration, TimePoint.to_minutes_since_midnight] <;>
    split <;> omega

/-- Witness for C7 at the midnight-crossing input 23:00 → 01:00. -/
theorem calculate_duration_spec_witness :
    WorkRecord.calculate_duration ⟨23, 0⟩ ⟨1, 0⟩ ≤ 1439 ∧
    WorkRecord.calculate_duration ⟨23, 0⟩ ⟨1, 0⟩
      = (1440 - TimePoint.to_minutes_since_midnight ⟨23, 0⟩)
        + TimePoint.to_minutes_since_midnight ⟨1, 0⟩ :=
  ⟨(calculate_duration_spec ⟨23, 0⟩ ⟨1, 0⟩ (by decide) (by decide) (by decide)
      (by decide)).1,
   (calculate_duration_spec ⟨23, 0⟩ ⟨1, 0⟩ (by decide) (by decide) (by decide)
      (by decide)).2.2.1 (by decide)⟩

/-! ### C9: id discipline of `DayData` -/

theorem DayOp.last_id_mono (d : DayData) (op : DayOp) :
    d.last_id ≤ (op.apply d).last_id := by
  cases op with
  | add record =>
    simp only [DayOp.apply, DayData.add_record]
    split <;> omega
  | remove id => simp [DayOp.apply, DayData.remove_record, RecordMap.remove]
  | nextId => simp [DayOp.apply, DayData.next_id]

theorem applyDayOps_last_id_mono (d : DayData) (ops : List DayOp) :
    d.last_id ≤ (applyDayOps d ops).last_id := by
  induction ops generalizing d with
  | nil => exact Nat.le_refl _
  | cons op rest ih =>
    exact Nat.le_trans (DayOp.last_id_mono d op) (ih (op.apply d))

theorem applyDayOps_add_le (d : DayData) (ops : List DayOp) (r : WorkRecord)
    (hmem : DayOp.add r ∈ ops) : r.id ≤ (applyDayOps d ops).last_id := by
  induction ops generalizing d with
  | nil => cases hmem
  | cons op rest ih =>
    rcases List.mem_cons.mp hmem with heq | hmem'
    · subst heq
      refine Nat.le_trans ?_ (applyDayOps_last_id_mono (DayOp.apply d (.add r)) rest)
      simp only [DayOp.apply, DayData.add_record]
      split <;> omega
    · exact ih (op.apply d) hmem'

theorem DayOp.keys_eq_ids (d : DayData) (op : DayOp)
    (hkeys : ∀ p ∈ d.work_records, p.1 = p.2.id) :
    ∀ p ∈ (op.apply d).work_records, p.1 = p.2.id := by
  cases op with
  | add record =>
    intro p hp
    simp only [DayOp.apply, DayData.add_record, RecordMap.insert] at hp
    rcases List.mem_append.mp hp with hp' | hp'
    · exact hkeys p (List.mem_of_mem_filter hp')
    · rcases List.mem_singleton.mp hp' with rfl
      rfl
  | remove id =>
    intro p hp
    simp only [DayOp.apply, DayData.remove_record, RecordMap.remove] at hp
    exact hkeys p (List.mem_of_mem_filter hp)
  | nextId =>
    intro p hp
    exact hkeys p hp

theorem nextIds_eq (n : Nat) : ∀ d : DayData,
    nextIds d n = (List.range n).map (fun i => d.last_id + 1 + i) := by
  induction n with
  | zero => intro d; rfl
  | succ n ih =>
    intro d
    rw [List.range_succ_eq_map, List.map_cons, List.map_map]
    simp only [nextIds, DayData.next_id]
    refine congrArg₂ List.cons (by omega) ?_
    rw [ih]
    refine List.map_congr_left fun i _ => ?_
    simp only [Function.comp_apply]
    omega

theorem nextIds_pairwise (d : DayData) (n : Nat) :
    List.Pairwise (· < ·) (nextIds d n) := by
  rw [nextIds_eq]
  exact List.Pairwise.map _ (fun a b h => by omega) (List.pairwise_lt_range n)

/-- C9: after any sequence of `add_record`/`remove_record`/`next_id` calls,
`last_id` never decreases and stays at or above the id of every record the
sequence inserted; map keys always equal the stored record's id; and `N`
successive `next_id` calls hand out strictly increasing values. -/
theorem day_data_id_discipline (d : DayData) (ops : List DayOp) (n : Nat)
    (hkeys : ∀ p ∈ d.work_records, p.1 = p.2.id) :
    d.last_id ≤ (applyDayOps d ops).last_id ∧
    (∀ r : WorkRecord, DayOp.add r ∈ ops → r.id ≤ (applyDayOps d ops).last_id) ∧
    (∀ p ∈ (applyDayOps d ops).work_records, p.1 = p.2.id) ∧
    List.Pairwise (· < ·) (nextIds d n) := by
  refine ⟨applyDayOps_last_id_mono d ops,
    fun r hr => applyDayOps_add_le d ops r hr, ?_, nextIds_pairwise d n⟩
  induction ops generalizing d with
  | nil => exact hkeys
  | cons op rest ih => exact ih (op.apply d) (DayOp.keys_eq_ids d op hkeys)

/-- A concrete empty day used by the C9 witness. -/
def c9Day : DayData := DayData.new ⟨2025, 11, 6⟩

/-- A concrete op sequence (add id 7, remove it, draw an id) for the C9 witness. -/
def c9Ops : List DayOp :=
  [.add (WorkRecord.new 7 "Coding" ⟨9, 0⟩ ⟨17, 0⟩), .remove 7, .nextId]

/-- Witness for C9: a concrete day, a concrete op sequence, three ids. -/
theorem day_data_id_discipline_witness :
    c9Day.last_id ≤ (applyDayOps c9Day c9Ops).last_id ∧
    (WorkRecord.new 7 "Coding" ⟨9, 0⟩ ⟨17, 0⟩).id ≤ (applyDayOps c9Day c9Ops).last_id ∧
    List.Pairwise (· < ·) (nextIds c9Day 3) := by
  have h := day_data_id_discipline c9Day c9Ops 3
    (by intro p hp; simp [c9Day, DayData.new] at hp)
  exact ⟨h.1, h.2.1 _ (by simp [c9Ops]), h.2.2.2⟩

/-! ### C4: undo/redo history -/

theorem History.pushAll_eq (snaps : List DayData) : ∀ h : History,
    h.undo_stack.length + snaps.length ≤ MAX_HISTORY_DEPTH → h.redo_stack = [] →
    History.pushAll h snaps = ⟨h.undo_stack ++ snaps, []⟩ := by
  induction snaps with
  | nil =>
    intro h hlen hredo
    cases h with
    | mk u r => simp_all [History.pushAll]
  | cons a snaps ih =>
    intro h hlen hredo
    have hne : ¬ h.undo_stack.length ≥ MAX_HISTORY_DEPTH := by
      simp only [List.length_cons] at hlen
      omega
    have hpush : h.push a = ⟨h.undo_stack ++ [a], []⟩ := by
      rw [History.push, if_neg hne]
    have : History.pushAll h (a :: snaps) = History.pushAll (h.push a) snaps := rfl
    rw [this, hpush, ih ⟨h.undo_stack ++ [a], []⟩ (by simp; simp at hlen; omega) rfl]
    simp

theorem History.undo_of_empty (h : History) (c : DayData)
    (hu : h.undo_stack = []) : (h.undo c).1 = none := by
  rw [History.undo, hu]
  rfl

theorem History.undoSeq_results : ∀ (currents s : List DayData) (h : History),
    h.undo_stack = s → currents.length = s.length →
    (History.undoSeq h currents).2 = s.reverse.map some ∧
    (History.undoSeq h currents).1.undo_stack = [] := by
  intro currents
  induction currents with
  | nil =>
    intro s h hs hlen
    have : s = [] := List.eq_nil_of_length_eq_zero hlen.symm
    subst this
    exact ⟨rfl, hs⟩
  | cons c cs ih =>
    intro s h hs hlen
    have hne : s ≠ [] := by
      intro hnil
      rw [hnil] at hlen
      simp at hlen
    have hsplit := List.dropLast_append_getLast hne
    have hlast : h.undo_stack.getLast? = some (s.getLast hne) := by
      rw [hs]
      exact List.getLast?_eq_getLast_of_ne_nil hne
    have hundo : h.undo c
        = (some (s.getLast hne), ⟨s.dropLast, h.redo_stack ++ [c]⟩) := by
      rw [History.undo, hlast, hs]
    have hlen' : cs.length = s.dropLast.length := by
      rw [List.length_dropLast]
      simp only [List.length_cons] at hlen
      omega
    have hrec := ih s.dropLast ⟨s.dropLast, h.redo_stack ++ [c]⟩ rfl hlen'
    have hseq : History.undoSeq h (c :: cs)
        = ((History.undoSeq ⟨s.dropLast, h.redo_stack ++ [c]⟩ cs).1,
           some (s.getLast hne) :: (History.undoSeq ⟨s.dropLast, h.redo_stack ++ [c]⟩ cs).2) := by
      rw [History.undoSeq, hundo]
    rw [hseq]
    refine ⟨?_, hrec.2⟩
    rw [hrec.1]
    have : s.reverse = s.getLast hne :: s.dropLast.reverse := by
      conv_lhs => rw [← hsplit]
      rw [List.reverse_append]
      rfl
    rw [this, List.map_cons]

/-- C4 (amended to the depth bound): for every K ≤ 50, pushing K snapshots
onto a fresh history and undoing K times returns exactly those snapshots in
reverse push order, the (K+1)-th undo returns `none`, and a push — here after
the K undos — leaves the redo stack empty, so a subsequent redo returns
`none`. -/
theorem history_undo_spec (snaps currents : List DayData) (x c c' : DayData)
    (hlen : snaps.length ≤ MAX_HISTORY_DEPTH)
    (hcur : currents.length = snaps.length) :
    (History.undoSeq (History.pushAll History.new snaps) currents).2
      = snaps.reverse.map some ∧
    (((History.undoSeq (History.pushAll History.new snaps) currents).1).undo c).1
      = none ∧
    (∀ h : History, ((h.push x).redo c').1 = none) := by
  have hpush : History.pushAll History.new snaps = ⟨snaps, []⟩ := by
    have := History.pushAll_eq snaps History.new (by simpa [History.new] using hlen) rfl
    simpa [History.new] using this
  have hres := History.undoSeq_results currents snaps
    (History.pushAll History.new snaps) (by rw [hpush]) hcur
  refine ⟨hres.1, History.undo_of_empty _ c hres.2, fun h => ?_⟩
  rw [History.redo, History.push]
  rfl

/-- Witness for C4's amended statement at K = 2. -/
theorem history_undo_spec_witness :
    (History.undoSeq (History.pushAll History.new [c9Day, c9Day]) [c9Day, c9Day]).2
      = [some c9Day, some c9Day] ∧
    (((History.undoSeq (History.pushAll History.new [c9Day, c9Day])
        [c9Day, c9Day]).1).undo c9Day).1 = none := by
  have h := history_undo_spec [c9Day, c9Day] [c9Day, c9Day] c9Day c9Day c9Day
    (by decide) rfl
  exact ⟨h.1, h.2.1⟩

/-- The i-th distinct snapshot used by the C4 counterexample. -/
def snapC4 (i : Nat) : DayData :=
  { date := ⟨2025, 11, 6⟩, last_id := i, work_records := [] }

/-- 51 pairwise-distinct snapshots. -/
def snaps51 : List DayData := (List.range 51).map snapC4

set_option maxRecDepth 40000 in
/-- Counterexample to C4 as stated (for *every* K): at K = 51 the oldest
snapshot is evicted at the depth bound, so undoing 51 times does *not*
return the 51 pushed snapshots in reverse order — the last undo yields
`none` instead of the first snapshot. -/
theorem history_undo_counterexample :
    snaps51.Nodup ∧
    (History.undoSeq (History.pushAll History.new snaps51) snaps51).2
      ≠ snaps51.reverse.map some ∧
    ((History.undoSeq (History.pushAll History.new snaps51) snaps51).2).getLast?
      = some none := by
  refine ⟨?_, ?_, ?_⟩ <;> decide

/-! ### C3: elapsed duration of a timer -/

theorem u64cast_natCast (k : Nat) (hk : k < U64_MOD) : u64cast (k : Int) = k := by
  show (((k : Int)) % ((U64_MOD : Nat) : Int)).toNat = k
  have h1 : ((k : Int)) % ((U64_MOD : Nat) : Int) = ((k % U64_MOD : Nat) : Int) := rfl
  rw [h1, Int.toNat_natCast]
  exact Nat.mod_eq_of_lt hk

theorem StdDuration.add_from_secs_from_nanos (a b : Nat)
    (ha : a < U64_MOD) (hb : b < 1000000000) :
    StdDuration.add (StdDuration.from_secs a) (StdDuration.from_nanos b)
      = some ⟨a, b⟩ := by
  simp only [StdDuration.add, StdDuration.from_secs, StdDuration.from_nanos,
    Nat.zero_add, Nat.add_zero]
  rw [Nat.div_eq_of_lt hb, Nat.mod_eq_of_lt hb, Nat.div_eq_of_lt hb,
    Nat.mod_eq_of_lt hb, Nat.add_zero, if_pos ha]

theorem StdDuration.checked_sub_from_secs (d : StdDuration) (p : Nat) :
    (StdDuration.checked_sub d (StdDuration.from_secs p)).getD StdDuration.zero
      = StdDuration.from_nanos (d.toNanos - p * 1000000000) := by
  have hts : (StdDuration.from_secs p).toNanos = p * 1000000000 := by
    show p * 1000000000 + 0 = p * 1000000000
    omega
  by_cases h : (StdDuration.from_secs p).toNanos ≤ d.toNanos
  · have hcs : StdDuration.checked_sub d (StdDuration.from_secs p)
        = some ⟨(d.toNanos - (StdDuration.from_secs p).toNanos) / 1000000000,
                (d.toNanos - (StdDuration.from_secs p).toNanos) % 1000000000⟩ := by
      unfold StdDuration.checked_sub
      rw [if_pos h]
    rw [hcs, hts]
    rfl
  · have hcs : StdDuration.checked_sub d (StdDuration.from_secs p) = none := by
      unfold StdDuration.checked_sub
      rw [if_neg h]
    rw [hts] at h
    have hz : d.toNanos - p * 1000000000 = 0 := by omega
    rw [hcs, hz]
    rfl

/-- C3 (amended): the zero clamp covers only the paused-duration
subtraction. Whenever the end point (paused_at when paused, else now) is at
or after `start_time` and `paused_duration_secs` is nonnegative (with both
quantities inside the i64 range the `time` crate can represent), the result
is exactly elapsed-minus-paused, saturating at zero — in particular it is
`Duration::ZERO` whenever the paused duration reaches or exceeds the
elapsed time, and it is never negative. (When clock skew puts the end point
*before* `start_time`, the `i64 → u64` casts wrap instead; see the
counterexample.) -/
theorem get_elapsed_duration_spec (timer : TimerState) (now end_point : OffsetDateTime)
    (hep : end_point = if timer.status = .Paused then timer.paused_at.getD now else now)
    (hp0 : 0 ≤ timer.paused_duration_secs)
    (hp1 : timer.paused_duration_secs < 9223372036854775808)
    (he0 : timer.start_time.epochNanos ≤ end_point.epochNanos)
    (he1 : end_point.epochNanos - timer.start_time.epochNanos < 9223372036854775808) :
    TimerManager.get_elapsed_duration timer now
      = some (StdDuration.from_nanos
          ((end_point.epochNanos - timer.start_time.epochNanos).toNat
            - timer.paused_duration_secs.toNat * 1000000000)) ∧
    ((end_point.epochNanos - timer.start_time.epochNanos).toNat
        ≤ timer.paused_duration_secs.toNat * 1000000000 →
      TimerManager.get_elapsed_duration timer now = some StdDuration.zero) := by
  obtain ⟨n, hn⟩ : ∃ n : Nat,
      end_point.epochNanos - timer.start_time.epochNanos = (n : Int) :=
    ⟨(end_point.epochNanos - timer.start_time.epochNanos).toNat,
      (Int.toNat_of_nonneg (by omega)).symm⟩
  obtain ⟨p, hp⟩ : ∃ p : Nat, timer.paused_duration_secs = (p : Int) :=
    ⟨timer.paused_duration_secs.toNat, (Int.toNat_of_nonneg hp0).symm⟩
  have hnN : (end_point.epochNanos - timer.start_time.epochNanos).toNat = n := by
    rw [hn, Int.toNat_natCast]
  have hpN : timer.paused_duration_secs.toNat = p := by
    rw [hp, Int.toNat_natCast]
  have hnb : n < 9223372036854775808 := by
    rw [hn] at he1
    exact_mod_cast he1
  have hpb : p < 9223372036854775808 := by
    rw [hp] at hp1
    exact_mod_cast hp1
  have hU : (9223372036854775808 : Nat) < U64_MOD := by
    rw [U64_MOD]
    omega
  have e1 : ((n : Int)).tdiv 1000000000 = ((n / 1000000000 : Nat) : Int) := rfl
  have e2 : ((n : Int)).tmod 1000000000 = ((n % 1000000000 : Nat) : Int) := rfl
  have h9 : n % 1000000000 < 1000000000 := Nat.mod_lt _ (by omega)
  have hdivU : n / 1000000000 < U64_MOD :=
    Nat.lt_trans (Nat.lt_of_le_of_lt (Nat.div_le_self n _) hnb) hU
  have hmodU : n % 1000000000 < U64_MOD := by
    unfold U64_MOD
    omega
  have hpU : p < U64_MOD := Nat.lt_trans hpb hU
  have hmain : TimerManager.get_elapsed_duration timer now
      = some (StdDuration.from_nanos (n - p * 1000000000)) := by
    simp only [TimerManager.get_elapsed_duration]
    rw [← hep, hn, hp, e1, e2,
      u64cast_natCast _ hdivU, u64cast_natCast _ hmodU, u64cast_natCast _ hpU,
      StdDuration.add_from_secs_from_nanos _ _ hdivU h9]
    show some ((StdDuration.checked_sub ⟨n / 1000000000, n % 1000000000⟩
        (StdDuration.from_secs p)).getD StdDuration.zero)
      = some (StdDuration.from_nanos (n - p * 1000000000))
    rw [StdDuration.checked_sub_from_secs]
    have ht : StdDuration.toNanos ⟨n / 1000000000, n % 1000000000⟩ = n := by
      simp only [StdDuration.toNanos]
      omega
    rw [ht]
  refine ⟨by rw [hmain, hnN, hpN], fun hle => ?_⟩
  rw [hnN, hpN] at hle
  rw [hmain, Nat.sub_eq_zero_of_le hle]
  rfl

/-- Concrete timer for the C3 witness: started at epoch nanosecond 0,
3 seconds of it spent paused. -/
def w3Timer : TimerState :=
  { id := none, task_name := "Work", description := none,
    start_time := ⟨⟨2025, 11, 6⟩, 12, 0, 0⟩, end_time := none,
    date := ⟨2025, 11, 6⟩, status := .Running, paused_duration_secs := 3,
    paused_at := none, created_at := ⟨⟨2025, 11, 6⟩, 12, 0, 0⟩,
    updated_at := ⟨⟨2025, 11, 6⟩, 12, 0, 0⟩,
    source_record_id := none, source_record_date := none }

/-- Ten seconds after `w3Timer` started. -/
def w3Now : OffsetDateTime := ⟨⟨2025, 11, 6⟩, 12, 0, 10000000000⟩

/-- Witness for C3's amended statement: 10 s elapsed minus 3 s paused. -/
theorem get_elapsed_duration_spec_witness :
    TimerManager.get_elapsed_duration w3Timer w3Now
      = some (StdDuration.from_nanos
          ((w3Now.epochNanos - w3Timer.start_time.epochNanos).toNat
            - w3Timer.paused_duration_secs.toNat * 1000000000)) :=
  (get_elapsed_duration_spec w3Timer w3Now w3Now (by decide) (by decide)
    (by decide) (by decide) (by decide)).1

/-- Concrete clock-skewed timer: its recorded `start_time` lies 5 seconds
*after* the current clock reading used as `now`. -/
def skewTimer : TimerState :=
  { id := none, task_name := "Work", description := none,
    start_time := ⟨⟨2025, 11, 6⟩, 12, 0, 5000000000⟩, end_time := none,
    date := ⟨2025, 11, 6⟩, status := .Running, paused_duration_secs := 0,
    paused_at := none, created_at := ⟨⟨2025, 11, 6⟩, 12, 0, 5000000000⟩,
    updated_at := ⟨⟨2025, 11, 6⟩, 12, 0, 5000000000⟩,
    source_record_id := none, source_record_date := none }

/-- A `now` 5 seconds before `skewTimer.start_time`. -/
def skewNow : OffsetDateTime := ⟨⟨2025, 11, 6⟩, 12, 0, 0⟩

/-- Counterexample to C3 as stated: with the end point 5 s before
`start_time` (clock skew), the result is not zero — the `i64 → u64` cast of
the negative whole-seconds value wraps to 2^64 - 5, so the returned duration
is about 2^64 seconds. -/
theorem get_elapsed_duration_counterexample :
    TimerManager.get_elapsed_duration skewTimer skewNow
      = some ⟨18446744073709551611, 0⟩ ∧
    TimerManager.get_elapsed_duration skewTimer skewNow ≠ some StdDuration.zero := by
  constructor <;> decide

/-! ### C2: external-modification detection -/

theorem StorageManager.lookup_track (sm : StorageManager) (date : Date)
    (m : Option Nat) : (sm.track date m).lookup date = some m := by
  unfold StorageManager.track StorageManager.lookup
  rw [find?_filter_ne_self]
  rfl

theorem StorageManager.check_lookup (disk : Disk) (sm : StorageManager) (date : Date) :
    ((StorageManager.check_and_reload disk sm date).1).lookup date
      = some (Storage.get_file_modified_time disk date) := by
  unfold StorageManager.check_and_reload
  rcases hl : sm.lookup date with _ | stored
  · simp only [hl]
    exact StorageManager.lookup_track _ _ _
  · simp only [hl]
    by_cases hc : Storage.get_file_modified_time disk date ≠ stored
    · rw [if_pos hc]
      exact StorageManager.lookup_track _ _ _
    · rw [if_neg hc, hl]
      push_neg at hc
      rw [hc]

/-- C2: `check_and_reload` returns `None` exactly when the date is already
tracked and the file's current mtime equals the last known one; on `None`
the manager is unchanged; otherwise it returns the loaded data and re-tracks
the current mtime. Consequently a second call with no intervening write
returns `None`, and a call against a disk whose mtime changed returns
`Some` of the newly loaded contents. -/
theorem check_and_reload_spec (disk : Disk) (sm : StorageManager) (date : Date) :
    ((StorageManager.check_and_reload disk sm date).2 = none ↔
      (sm.lookup date).isSome ∧
        some (Storage.get_file_modified_time disk date) = sm.lookup date) ∧
    ((StorageManager.check_and_reload disk sm date).2 = none →
      (StorageManager.check_and_reload disk sm date).1 = sm) ∧
    (∀ data, (StorageManager.check_and_reload disk sm date).2 = some data →
      data = Storage.load disk date ∧
      ((StorageManager.check_and_reload disk sm date).1).lookup date
        = some (Storage.get_file_modified_time disk date)) ∧
    (StorageManager.check_and_reload disk
        (StorageManager.check_and_reload disk sm date).1 date).2 = none ∧
    (∀ disk2 : Disk,
      Storage.get_file_modified_time disk2 date
          ≠ Storage.get_file_modified_time disk date →
      (StorageManager.check_and_reload disk2
          (StorageManager.check_and_reload disk sm date).1 date).2
        = some (Storage.load disk2 date)) := by
  have hsecond : ∀ (disk2 : Disk) (sm2 : StorageManager),
      sm2.lookup date = some (Storage.get_file_modified_time disk2 date) →
      StorageManager.check_and_reload disk2 sm2 date = (sm2, none) := by
    intro disk2 sm2 hl
    unfold StorageManager.check_and_reload
    simp only [hl]
    rw [if_neg (by simp)]
  have hchanged : ∀ (disk2 : Disk) (sm2 : StorageManager) (m : Option Nat),
      sm2.lookup date = some m →
      Storage.get_file_modified_time disk2 date ≠ m →
      StorageManager.check_and_reload disk2 sm2 date
        = (sm2.track date (Storage.get_file_modified_time disk2 date),
           some (Storage.load disk2 date)) := by
    intro disk2 sm2 m hl hne
    unfold StorageManager.check_and_reload
    simp only [hl]
    rw [if_pos hne]
  refine ⟨?_, ?_, ?_, ?_, ?_⟩
  · constructor
    · intro hnone
      rcases hl : sm.lookup date with _ | stored
      · unfold StorageManager.check_and_reload at hnone
        simp only [hl] at hnone
        exact Option.noConfusion hnone
      · refine ⟨rfl, ?_⟩
        unfold StorageManager.check_and_reload at hnone
        simp only [hl] at hnone
        by_cases hc : Storage.get_file_modified_time disk date ≠ stored
        · rw [if_pos hc] at hnone
          exact Option.noConfusion hnone
        · push_neg at hc
          rw [hc]
    · rintro ⟨hsome, heq⟩
      rcases hl : sm.lookup date with _ | stored
      · rw [hl] at hsome
        simp at hsome
      · rw [hl] at heq
        have hmt : Storage.get_file_modified_time disk date = stored :=
          Option.some.inj heq
        rw [hsecond disk sm (by rw [hl, hmt])]
  · intro hnone
    rcases hl : sm.lookup date with _ | stored
    · unfold StorageManager.check_and_reload at hnone
      simp only [hl] at hnone
      exact Option.noConfusion hnone
    · unfold StorageManager.check_and_reload at hnone ⊢
      simp only [hl] at hnone ⊢
      by_cases hc : Storage.get_file_modified_time disk date ≠ stored
      · rw [if_pos hc] at hnone
        exact Option.noConfusion hnone
      · rw [if_neg hc]
  · intro data hdata
    refine ⟨?_, StorageManager.check_lookup disk sm date⟩
    rcases hl : sm.lookup date with _ | stored
    · unfold StorageManager.check_and_reload at hdata
      simp only [hl] at hdata
      exact (Option.some.inj hdata).symm
    · unfold StorageManager.check_and_reload at hdata
      simp only [hl] at hdata
      by_cases hc : Storage.get_file_modified_time disk date ≠ stored
      · rw [if_pos hc] at hdata
        exact (Option.some.inj hdata).symm
      · rw [if_neg hc] at hdata
        simp at hdata
  · rw [hsecond disk _ (StorageManager.check_lookup disk sm date)]
  · intro disk2 hne
    rw [hchanged disk2 _ _ (StorageManager.check_lookup disk sm date) hne]

/-- Concrete date used by the C2/C6 witnesses. -/
def c2Date : Date := ⟨2025, 11, 6⟩

/-- A disk with no files at all. -/
def emptyDisk : Disk := ⟨[], none⟩

/-- A disk holding one day file for `c2Date`, written at mtime 5. -/
def diskB : Disk :=
  ⟨[(c2Date, DayData.new c2Date, 5)], none⟩

/-- Witness for C2: on an untracked empty disk, a second check reports no
change, and a check against a disk whose file appeared reports the reload. -/
theorem check_and_reload_spec_witness :
    (StorageManager.check_and_reload emptyDisk
        (StorageManager.check_and_reload emptyDisk ⟨[]⟩ c2Date).1 c2Date).2 = none ∧
    (StorageManager.check_and_reload diskB
        (StorageManager.check_and_reload emptyDisk ⟨[]⟩ c2Date).1 c2Date).2
      = some (Storage.load diskB c2Date) :=
  ⟨(check_and_reload_spec emptyDisk ⟨[]⟩ c2Date).2.2.2.1,
   (check_and_reload_spec emptyDisk ⟨[]⟩ c2Date).2.2.2.2 diskB (by decide)⟩

/-! ### C6: removing a record -/

theorem Storage.load_save (disk : Disk) (d : DayData) (m : Nat) :
    Storage.load (Storage.save disk d m) d.date = d := by
  simp only [Storage.load, Storage.save]
  rw [find?_filter_ne_self]

theorem Storage.get_file_modified_time_save (disk : Disk) (d : DayData) (m : Nat) :
    Storage.get_file_modified_time (Storage.save disk d m) d.date = some m := by
  simp only [Storage.get_file_modified_time, Storage.save]
  rw [find?_filter_ne_self]
  rfl

/-- `load` after `save` of a day whose `date` field is the queried date. -/
theorem Storage.load_save_of (disk : Disk) (d : DayData) (m : Nat) (date : Date)
    (hd : d.date = date) : Storage.load (Storage.save disk d m) date = d := by
  subst hd
  exact Storage.load_save disk d m

/-- The mtime after `save`, keyed through the day's `date` field. -/
theorem Storage.get_file_modified_time_save_of (disk : Disk) (d : DayData)
    (m : Nat) (date : Date) (hd : d.date = date) :
    Storage.get_file_modified_time (Storage.save disk d m) date = some m := by
  subst hd
  exact Storage.get_file_modified_time_save disk d m

theorem RecordMap.get_filter_self (m : RecordMap) (k : Nat) :
    RecordMap.get (m.filter (fun p => p.1 != k)) k = none := by
  induction m with
  | nil => rfl
  | cons a m ih =>
    rw [List.filter_cons]
    by_cases h : a.1 = k
    · rw [if_neg (by simp [h])]
      exact ih
    · rw [if_pos (by simp [h]), RecordMap.get_cons, if_neg h]
      exact ih

/-- C6: `remove_record` on a day without the id fails with `RecordNotFound`
and performs no save — disk and tracking are exactly as before; with the id
present it removes that record, saves the day, re-tracks the fresh mtime and
returns the removed record (which is then gone from the reloaded day). -/
theorem remove_record_spec (disk : Disk) (sm : StorageManager) (date : Date)
    (id : Nat) (mtime : Nat)
    (hwf : (Storage.load disk date).date = date) :
    ((Storage.load disk date).work_records.get id = none →
      StorageManager.remove_record disk sm date id mtime
        = (disk, sm, .error (.recordNotFound id))) ∧
    (∀ r, (Storage.load disk date).work_records.get id = some r →
      StorageManager.remove_record disk sm date id mtime
        = (Storage.save disk
            { Storage.load disk date with
              work_records := (Storage.load disk date).work_records.filter
                (fun p => p.1 != id) } mtime,
           sm.track date (some mtime), .ok r) ∧
      Storage.get_file_modified_time
        (StorageManager.remove_record disk sm date id mtime).1 date = some mtime ∧
      (Storage.load (StorageManager.remove_record disk sm date id mtime).1
          date).work_records.get id = none) := by
  constructor
  · intro hnone
    unfold StorageManager.remove_record RecordMap.remove
    simp only [hnone]
  · intro r hsome
    have hmt : Storage.get_file_modified_time
        (Storage.save disk
          { Storage.load disk date with
            work_records := (Storage.load disk date).work_records.filter
              (fun p => p.1 != id) } mtime) date = some mtime :=
      Storage.get_file_modified_time_save_of disk _ mtime date hwf
    have heval : StorageManager.remove_record disk sm date id mtime
        = (Storage.save disk
            { Storage.load disk date with
              work_records := (Storage.load disk date).work_records.filter
                (fun p => p.1 != id) } mtime,
           sm.track date (some mtime), .ok r) := by
      unfold StorageManager.remove_record RecordMap.remove
      simp only [hsome]
      rw [hmt]
    refine ⟨heval, ?_, ?_⟩
    · rw [heval]
      exact hmt
    · rw [heval]
      have hload : Storage.load (Storage.save disk
          { Storage.load disk date with
            work_records := (Storage.load disk date).work_records.filter
              (fun p => p.1 != id) } mtime) date
          = { Storage.load disk date with
              work_records := (Storage.load disk date).work_records.filter
                (fun p => p.1 != id) } :=
        Storage.load_save_of disk _ mtime date hwf
      rw [hload]
      exact RecordMap.get_filter_self _ id

/-- A disk whose `c2Date` file holds exactly one record, id 1. -/
def diskC : Disk :=
  ⟨[(c2Date, DayData.add_record (DayData.new c2Date)
      (WorkRecord.new 1 "Coding" ⟨9, 0⟩ ⟨17, 0⟩), 5)], none⟩

/-- Witness for C6: removing the absent id 999 fails and leaves the disk
untouched; removing the present id 1 succeeds and returns the record. -/
theorem remove_record_spec_witness :
    StorageManager.remove_record diskC ⟨[]⟩ c2Date 999 7
      = (diskC, ⟨[]⟩, .error (.recordNotFound 999)) ∧
    Storage.get_file_modified_time
      (StorageManager.remove_record diskC ⟨[]⟩ c2Date 1 7).1 c2Date = some 7 :=
  ⟨(remove_record_spec diskC ⟨[]⟩ c2Date 999 7 (by decide)).1 (by decide),
   ((remove_record_spec diskC ⟨[]⟩ c2Date 1 7 (by decide)).2
      (WorkRecord.new 1 "Coding" ⟨9, 0⟩ ⟨17, 0⟩) (by decide)).2.1⟩

/-! ### Timer-lifecycle evaluation lemmas (shared by C1, C5, C8, C10) -/

theorem TimePoint.new_ok (h m : Nat) (hh : h < 24) (hm : m < 60) :
    TimePoint.new h m = .ok ⟨h, m⟩ := by
  unfold TimePoint.new
  rw [if_neg (by omega), if_neg (by omega)]

/-- The timer value `stop` builds before converting it. -/
def stoppedOf (timer0 : TimerState) (now : OffsetDateTime) : TimerState :=
  { timer0 with end_time := some now, status := .Stopped, updated_at := now }

theorem to_work_record_stopped (timer0 : TimerState) (now : OffsetDateTime)
    (hsh : timer0.start_time.hour < 24) (hsm : timer0.start_time.minute < 60)
    (hnh : now.hour < 24) (hnm : now.minute < 60) :
    TimerManager.to_work_record (stoppedOf timer0 now)
      = .ok { WorkRecord.new 1 timer0.task_name
                ⟨timer0.start_time.hour, timer0.start_time.minute⟩
                ⟨now.hour, now.minute⟩ with
              description := timer0.description.getD "" } := by
  unfold TimerManager.to_work_record stoppedOf
  rw [if_neg (by simp)]
  simp only [TimePoint.new_ok _ _ hsh hsm, TimePoint.new_ok _ _ hnh hnm]
  rcases hd : timer0.description with _ | dsc
  · simp only [hd, Option.getD]
    rfl
  · simp only [hd, Option.getD]

theorem to_work_record_ne_noActive (timer : TimerState) :
    TimerManager.to_work_record timer ≠ .error .noActiveTimer := by
  unfold TimerManager.to_work_record
  split
  · simp
  · split
    · simp
    · split
      · simp
      · split <;> simp

theorem stop_eval_none (disk : Disk) (now : OffsetDateTime) (mtime : Nat)
    (ht : disk.timerFile = none) :
    TimerManager.stop disk now mtime = (disk, .error .noActiveTimer) := by
  unfold TimerManager.stop Storage.load_active_timer
  simp only [ht]

/-- The day file `stop` writes in the update-in-place case. -/
def stopFoundDay (disk : Disk) (timer0 : TimerState) (sid : Nat) (tp : TimePoint) :
    DayData :=
  { Storage.load disk (timer0.source_record_date.getD timer0.start_time.date) with
    work_records := (Storage.load disk
      (timer0.source_record_date.getD timer0.start_time.date)).work_records.modify
        sid (fun record => WorkRecord.update_duration { record with «end» := tp }) }

/-- The day file `stop` writes in the insert-a-new-record case. -/
def stopInsertDay (disk : Disk) (timer0 : TimerState) (wr0 : WorkRecord) : DayData :=
  (((Storage.load disk
      (timer0.source_record_date.getD timer0.start_time.date)).next_id).2).add_record
    { wr0 with
      id := ((Storage.load disk
        (timer0.source_record_date.getD timer0.start_time.date)).next_id).1 }

theorem stop_eval_found (disk : Disk) (timer0 : TimerState) (now : OffsetDateTime)
    (mtime : Nat) (sid : Nat) (r : WorkRecord) (tp : TimePoint) (wr0 : WorkRecord)
    (ht : disk.timerFile = some timer0)
    (hsid : timer0.source_record_id = some sid)
    (hget : (Storage.load disk
        (timer0.source_record_date.getD timer0.start_time.date)).work_records.get sid
      = some r)
    (htp : TimePoint.new now.hour now.minute = .ok tp)
    (htw : TimerManager.to_work_record (stoppedOf timer0 now) = .ok wr0) :
    TimerManager.stop disk now mtime
      = (Storage.clear_active_timer
          (Storage.save disk (stopFoundDay disk timer0 sid tp) mtime), .ok wr0) := by
  unfold TimerManager.stop Storage.load_active_timer stopFoundDay
  unfold stoppedOf at htw
  simp only [hsid] at htw
  simp only [ht, hsid, hget, htp, htw]

theorem stop_eval_found_err (disk : Disk) (timer0 : TimerState)
    (now : OffsetDateTime) (mtime : Nat) (sid : Nat) (r : WorkRecord)
    (tp : TimePoint) (e : TError)
    (ht : disk.timerFile = some timer0)
    (hsid : timer0.source_record_id = some sid)
    (hget : (Storage.load disk
        (timer0.source_record_date.getD timer0.start_time.date)).work_records.get sid
      = some r)
    (htp : TimePoint.new now.hour now.minute = .ok tp)
    (htw : TimerManager.to_work_record (stoppedOf timer0 now) = .error e) :
    TimerManager.stop disk now mtime
      = (Storage.clear_active_timer
          (Storage.save disk (stopFoundDay disk timer0 sid tp) mtime), .error e) := by
  unfold TimerManager.stop Storage.load_active_timer stopFoundDay
  unfold stoppedOf at htw
  simp only [hsid] at htw
  simp only [ht, hsid, hget, htp, htw]

theorem stop_eval_found_badtime (disk : Disk) (timer0 : TimerState)
    (now : OffsetDateTime) (mtime : Nat) (sid : Nat) (r : WorkRecord) (e : String)
    (ht : disk.timerFile = some timer0)
    (hsid : timer0.source_record_id = some sid)
    (hget : (Storage.load disk
        (timer0.source_record_date.getD timer0.start_time.date)).work_records.get sid
      = some r)
    (htp : TimePoint.new now.hour now.minute = .error e) :
    TimerManager.stop disk now mtime = (disk, .error (.invalidTime e)) := by
  unfold TimerManager.stop Storage.load_active_timer
  simp only [ht, hsid, hget, htp]

theorem stop_eval_insert_none (disk : Disk) (timer0 : TimerState)
    (now : OffsetDateTime) (mtime : Nat) (wr0 : WorkRecord)
    (ht : disk.timerFile = some timer0)
    (hsid : timer0.source_record_id = none)
    (htw : TimerManager.to_work_record (stoppedOf timer0 now) = .ok wr0) :
    TimerManager.stop disk now mtime
      = (Storage.clear_active_timer
          (Storage.save disk (stopInsertDay disk timer0 wr0) mtime), .ok wr0) := by
  unfold TimerManager.stop Storage.load_active_timer stopInsertDay
  unfold stoppedOf at htw
  simp only [hsid] at htw
  simp only [ht, hsid, htw, DayData.next_id]

theorem stop_eval_insert_none_err (disk : Disk) (timer0 : TimerState)
    (now : OffsetDateTime) (mtime : Nat) (e : TError)
    (ht : disk.timerFile = some timer0)
    (hsid : timer0.source_record_id = none)
    (htw : TimerManager.to_work_record (stoppedOf timer0 now) = .error e) :
    TimerManager.stop disk now mtime = (disk, .error e) := by
  unfold TimerManager.stop Storage.load_active_timer
  unfold stoppedOf at htw
  simp only [hsid] at htw
  simp only [ht, hsid, htw]

theorem stop_eval_insert_notfound (disk : Disk) (timer0 : TimerState)
    (now : OffsetDateTime) (mtime : Nat) (sid : Nat) (wr0 : WorkRecord)
    (ht : disk.timerFile = some timer0)
    (hsid : timer0.source_record_id = some sid)
    (hget : (Storage.load disk
        (timer0.source_record_date.getD timer0.start_time.date)).work_records.get sid
      = none)
    (htw : TimerManager.to_work_record (stoppedOf timer0 now) = .ok wr0) :
    TimerManager.stop disk now mtime
      = (Storage.clear_active_timer
          (Storage.save disk (stopInsertDay disk timer0 wr0) mtime), .ok wr0) := by
  unfold TimerManager.stop Storage.load_active_timer stopInsertDay
  unfold stoppedOf at htw
  simp only [hsid] at htw
  simp only [ht, hsid, hget, htw, DayData.next_id]

theorem stop_eval_insert_notfound_err (disk : Disk) (timer0 : TimerState)
    (now : OffsetDateTime) (mtime : Nat) (sid : Nat) (e : TError)
    (ht : disk.timerFile = some timer0)
    (hsid : timer0.source_record_id = some sid)
    (hget : (Storage.load disk
        (timer0.source_record_date.getD timer0.start_time.date)).work_records.get sid
      = none)
    (htw : TimerManager.to_work_record (stoppedOf timer0 now) = .error e) :
    TimerManager.stop disk now mtime = (disk, .error e) := by
  unfold TimerManager.stop Storage.load_active_timer
  unfold stoppedOf at htw
  simp only [hsid] at htw
  simp only [ht, hsid, hget, htw]

/-- The timer value `start` constructs and persists. -/
def startedTimer (now : OffsetDateTime) (task_name : String)
    (description : Option String) (source_record_id : Option Nat)
    (source_record_date : Option Date) : TimerState :=
  { id := none, task_name, description, start_time := now, end_time := none,
    date := now.date, status := .Running, paused_duration_secs := 0,
    paused_at := none, created_at := now, updated_at := now,
    source_record_id, source_record_date }

/-- The timer `pause` persists on success. -/
def pausedTimer (t : TimerState) (now : OffsetDateTime) : TimerState :=
  { t with paused_at := some now, status := .Paused, updated_at := now }

/-- The timer `resume` persists on success (cumulating the pause length). -/
def resumedTimer (t : TimerState) (now p : OffsetDateTime) : TimerState :=
  { t with
    paused_duration_secs :=
      t.paused_duration_secs + TimerManager.wholeSeconds (now.epochNanos - p.epochNanos),
    paused_at := none, status := .Running, updated_at := now }

theorem pause_eval_none (disk : Disk) (now : OffsetDateTime)
    (ht : disk.timerFile = none) :
    TimerManager.pause disk now = (disk, .error .noActiveTimer) := by
  unfold TimerManager.pause Storage.load_active_timer
  simp only [ht]

theorem pause_eval_paused (disk : Disk) (now : OffsetDateTime) (t : TimerState)
    (ht : disk.timerFile = some t) (hs : t.status = .Paused) :
    TimerManager.pause disk now = (disk, .error .alreadyPaused) := by
  unfold TimerManager.pause Storage.load_active_timer
  simp only [ht, hs, if_pos]

theorem pause_eval_stopped (disk : Disk) (now : OffsetDateTime) (t : TimerState)
    (ht : disk.timerFile = some t) (hs : t.status = .Stopped) :
    TimerManager.pause disk now = (disk, .error .canOnlyPauseRunning) := by
  unfold TimerManager.pause Storage.load_active_timer
  simp only [ht, hs]
  rw [if_neg (by simp), if_pos (by simp)]

theorem pause_eval_running (disk : Disk) (now : OffsetDateTime) (t : TimerState)
    (ht : disk.timerFile = some t) (hs : t.status = .Running) :
    TimerManager.pause disk now
      = (Storage.save_active_timer disk (pausedTimer t now),
         .ok (pausedTimer t now)) := by
  unfold TimerManager.pause Storage.load_active_timer pausedTimer
  simp only [ht, hs]
  rw [if_neg (by simp), if_neg (by simp)]

theorem resume_eval_none (disk : Disk) (now : OffsetDateTime)
    (ht : disk.timerFile = none) :
    TimerManager.resume disk now = (disk, .error .noActiveTimer) := by
  unfold TimerManager.resume Storage.load_active_timer
  simp only [ht]

theorem resume_eval_notpaused (disk : Disk) (now : OffsetDateTime) (t : TimerState)
    (ht : disk.timerFile = some t) (hs : t.status ≠ .Paused) :
    TimerManager.resume disk now = (disk, .error .canOnlyResumePaused) := by
  unfold TimerManager.resume Storage.load_active_timer
  simp only [ht]
  rw [if_pos hs]

theorem resume_eval_paused (disk : Disk) (now : OffsetDateTime) (t : TimerState)
    (p : OffsetDateTime) (ht : disk.timerFile = some t)
    (hs : t.status = .Paused) (hp : t.paused_at = some p) :
    TimerManager.resume disk now
      = (Storage.save_active_timer disk (resumedTimer t now p),
         .ok (resumedTimer t now p)) := by
  unfold TimerManager.resume Storage.load_active_timer resumedTimer
  simp only [ht, hp]
  rw [if_neg (by simp [hs])]

/-! ### C5: timer lifecycle guards -/

/-- C5: `start` fails with `TimerAlreadyRunning` exactly when the timer file
exists; `pause`, `resume` and `stop` fail with `NoActiveTimer` exactly when
it does not; given an active timer, `pause` rejects `Paused`/`Stopped` with
an invalid-transition error and otherwise persists `status = Paused`,
`paused_at = now`; `resume` rejects anything but `Paused` and otherwise adds
the whole seconds since `paused_at` to `paused_duration_secs`, clears
`paused_at` and persists `status = Running`. -/
theorem timer_guard_spec :
    (∀ (disk : Disk) (now : OffsetDateTime) (name : String) (desc : Option String)
        (si : Option Nat) (sd : Option Date),
      (disk.timerFile.isSome →
        TimerManager.start disk now name desc si sd
          = (disk, .error .timerAlreadyRunning)) ∧
      (disk.timerFile = none →
        ∃ t, TimerManager.start disk now name desc si sd
            = (Storage.save_active_timer disk t, .ok t) ∧ t.status = .Running)) ∧
    (∀ (disk : Disk) (now : OffsetDateTime),
      ((TimerManager.pause disk now).2 = .error .noActiveTimer ↔
        disk.timerFile = none) ∧
      ((TimerManager.resume disk now).2 = .error .noActiveTimer ↔
        disk.timerFile = none)) ∧
    (∀ (disk : Disk) (now : OffsetDateTime) (mtime : Nat),
      ((TimerManager.stop disk now mtime).2 = .error .noActiveTimer ↔
        disk.timerFile = none)) ∧
    (∀ (disk : Disk) (now : OffsetDateTime) (t : TimerState),
      disk.timerFile = some t →
      ((t.status = .Paused ∨ t.status = .Stopped) →
        ∃ e, TimerManager.pause disk now = (disk, .error e) ∧
          e.isInvalidTransition = true) ∧
      (t.status = .Running →
        TimerManager.pause disk now
          = (Storage.save_active_timer disk (pausedTimer t now),
             .ok (pausedTimer t now)))) ∧
    (∀ (disk : Disk) (now : OffsetDateTime) (t : TimerState),
      disk.timerFile = some t →
      (t.status ≠ .Paused →
        TimerManager.resume disk now = (disk, .error .canOnlyResumePaused) ∧
        TError.isInvalidTransition .canOnlyResumePaused = true) ∧
      (∀ p, t.status = .Paused → t.paused_at = some p →
        TimerManager.resume disk now
          = (Storage.save_active_timer disk (resumedTimer t now p),
             .ok (resumedTimer t now p)))) := by
  refine ⟨?_, ?_, ?_, ?_, ?_⟩
  · intro disk now name desc si sd
    constructor
    · intro hsome
      unfold TimerManager.start Storage.load_active_timer
      rw [if_pos hsome]
    · intro hnone
      refine ⟨startedTimer now name desc si sd, ?_, rfl⟩
      unfold TimerManager.start Storage.load_active_timer startedTimer
      rw [if_neg (by simp [hnone])]
  · intro disk now
    rcases ht : disk.timerFile with _ | t
    · refine ⟨⟨fun _ => rfl, fun _ => ?_⟩, ⟨fun _ => rfl, fun _ => ?_⟩⟩
      · rw [pause_eval_none disk now ht]
      · rw [resume_eval_none disk now ht]
    · constructor
      · constructor
        · intro hcontra
          exfalso
          rcases hs : t.status with _ | _ | _
          · rw [pause_eval_running disk now t ht hs] at hcontra
            exact Except.noConfusion hcontra
          · rw [pause_eval_paused disk now t ht hs] at hcontra
            simp at hcontra
          · rw [pause_eval_stopped disk now t ht hs] at hcontra
            simp at hcontra
        · intro hcontra
          exact Option.noConfusion hcontra
      · constructor
        · intro hcontra
          exfalso
          rcases hs : t.status with _ | _ | _
          · rw [resume_eval_notpaused disk now t ht (by simp [hs])] at hcontra
            simp at hcontra
          · rcases hp : t.paused_at with _ | p
            · unfold TimerManager.resume Storage.load_active_timer at hcontra
              simp only [ht, hp] at hcontra
              rw [if_neg (by simp [hs])] at hcontra
              simp at hcontra
            · rw [resume_eval_paused disk now t p ht hs hp] at hcontra
              simp at hcontra
          · rw [resume_eval_notpaused disk now t ht (by simp [hs])] at hcontra
            simp at hcontra
        · intro hcontra
          exact Option.noConfusion hcontra
  · intro disk now mtime
    rcases ht : disk.timerFile with _ | t
    · refine ⟨fun _ => rfl, fun _ => ?_⟩
      rw [stop_eval_none disk now mtime ht]
    · constructor
      · intro hcontra
        exfalso
        rcases hsid : t.source_record_id with _ | sid
        · rcases htw : TimerManager.to_work_record (stoppedOf t now) with e | wr0
          · rw [stop_eval_insert_none_err disk t now mtime e ht hsid htw] at hcontra
            simp only [Except.error.injEq] at hcontra
            subst hcontra
            exact to_work_record_ne_noActive _ htw
          · rw [stop_eval_insert_none disk t now mtime wr0 ht hsid htw] at hcontra
            exact Except.noConfusion hcontra
        · rcases hget : (Storage.load disk
              (t.source_record_date.getD t.start_time.date)).work_records.get sid
            with _ | r
          · rcases htw : TimerManager.to_work_record (stoppedOf t now) with e | wr0
            · rw [stop_eval_insert_notfound_err disk t now mtime sid e
                  ht hsid hget htw] at hcontra
              simp only [Except.error.injEq] at hcontra
              subst hcontra
              exact to_work_record_ne_noActive _ htw
            · rw [stop_eval_insert_notfound disk t now mtime sid wr0
                  ht hsid hget htw] at hcontra
              exact Except.noConfusion hcontra
          · rcases htp : TimePoint.new now.hour now.minute with e | tp
            · rw [stop_eval_found_badtime disk t now mtime sid r e
                  ht hsid hget htp] at hcontra
              simp at hcontra
            · rcases htw : TimerManager.to_work_record (stoppedOf t now) with e | wr0
              · rw [stop_eval_found_err disk t now mtime sid r tp e
                    ht hsid hget htp htw] at hcontra
                simp only [Except.error.injEq] at hcontra
                subst hcontra
                exact to_work_record_ne_noActive _ htw
              · rw [stop_eval_found disk t now mtime sid r tp wr0
                    ht hsid hget htp htw] at hcontra
                exact Except.noConfusion hcontra
      · intro hcontra
        exact Option.noConfusion hcontra
  · intro disk now t ht
    constructor
    · intro hs
      rcases hs with hs | hs
      · exact ⟨.alreadyPaused, pause_eval_paused disk now t ht hs, rfl⟩
      · exact ⟨.canOnlyPauseRunning, pause_eval_stopped disk now t ht hs, rfl⟩
    · intro hs
      exact pause_eval_running disk now t ht hs
  · intro disk now t ht
    constructor
    · intro hs
      exact ⟨resume_eval_notpaused disk now t ht hs, rfl⟩
    · intro p hs hp
      exact resume_eval_paused disk now t p ht hs hp

/-- A paused timer state, for the C5 witness. -/
def pausedTimerFile : TimerState :=
  { w3Timer with
    status := .Paused, paused_at := some ⟨⟨2025, 11, 6⟩, 12, 0, 4000000000⟩ }

/-- A disk holding a paused timer, for the C5 witness. -/
def pausedDisk : Disk := ⟨[], some pausedTimerFile⟩

/-- Witness for C5: starting over `pausedDisk` is rejected, pausing it is an
invalid transition, and pausing a fresh start on the empty disk succeeds. -/
theorem timer_guard_spec_witness :
    TimerManager.start pausedDisk w3Now "Work" none none none
      = (pausedDisk, .error .timerAlreadyRunning) ∧
    (∃ e, TimerManager.pause pausedDisk w3Now = (pausedDisk, .error e) ∧
      e.isInvalidTransition = true) ∧
    ((TimerManager.stop emptyDisk w3Now 3).2 = .error .noActiveTimer ↔
      emptyDisk.timerFile = none) :=
  ⟨(timer_guard_spec.1 pausedDisk w3Now "Work" none none none).1 (by decide),
   (timer_guard_spec.2.2.2.1 pausedDisk w3Now _ rfl).1 (Or.inl rfl),
   timer_guard_spec.2.2.1 emptyDisk w3Now 3⟩

/-! ### C10: no task-name validation in the core -/

/-- C10: the timer core validates nothing about the task name — for every
string, including the empty and whitespace-only ones, `start` succeeds when
no timer file exists and persists a `Running` timer carrying that exact,
untrimmed name; the blank-after-trim `EmptyName` rejection happens only in
the CLI front-end, which trims before delegating. -/
theorem start_no_name_validation :
    (∀ (disk : Disk) (now : OffsetDateTime) (task : String) (desc : Option String)
        (si : Option Nat) (sd : Option Date),
      disk.timerFile = none →
      TimerManager.start disk now task desc si sd
        = (Storage.save_active_timer disk (startedTimer now task desc si sd),
           .ok (startedTimer now task desc si sd)) ∧
      (startedTimer now task desc si sd).task_name = task ∧
      (startedTimer now task desc si sd).status = .Running ∧
      (Storage.save_active_timer disk
          (startedTimer now task desc si sd)).timerFile
        = some (startedTimer now task desc si sd)) ∧
    (∀ (disk : Disk) (now : OffsetDateTime) (task : String) (desc : Option String),
      (strTrim task = "" →
        Cli.handle_start disk now task desc = (disk, .error .emptyName)) ∧
      (strTrim task ≠ "" →
        Cli.handle_start disk now task desc
          = TimerManager.start disk now (strTrim task) desc none none)) := by
  constructor
  · intro disk now task desc si sd hnone
    refine ⟨?_, rfl, rfl, rfl⟩
    unfold TimerManager.start Storage.load_active_timer startedTimer
    rw [if_neg (by simp [hnone])]
  · intro disk now task desc
    constructor
    · intro hblank
      unfold Cli.handle_start
      rw [if_pos hblank]
    · intro hblank
      unfold Cli.handle_start
      rw [if_neg hblank]

/-- Witness for C10: the empty name starts fine in the core; a
whitespace-only name is rejected by the CLI layer. -/
theorem start_no_name_validation_witness :
    TimerManager.start emptyDisk w3Now "" none none none
      = (Storage.save_active_timer emptyDisk (startedTimer w3Now "" none none none),
         .ok (startedTimer w3Now "" none none none)) ∧
    (startedTimer w3Now "" none none none).task_name = "" ∧
    Cli.handle_start emptyDisk w3Now "   " none = (emptyDisk, .error .emptyName) :=
  ⟨((start_no_name_validation.1 emptyDisk w3Now "" none none none) rfl).1,
   ((start_no_name_validation.1 emptyDisk w3Now "" none none none) rfl).2.1,
   (start_no_name_validation.2 emptyDisk w3Now "   " none).1 (by decide)⟩

/-! ### C8: a persisted timer is never `Stopped` -/

/-- The status recorded in the persisted timer file, if one exists. -/
def statusOfTimerFile (disk : Disk) : Option TimerStatus :=
  disk.timerFile.map (·.status)

theorem resume_eval_paused_nopa (disk : Disk) (now : OffsetDateTime)
    (t : TimerState) (ht : disk.timerFile = some t)
    (hs : t.status = .Paused) (hp : t.paused_at = none) :
    TimerManager.resume disk now
      = (Storage.save_active_timer disk { t with paused_duration_secs := t.paused_duration_secs, paused_at := none, status := .Running, updated_at := now },
         .ok { t with paused_duration_secs := t.paused_duration_secs, paused_at := none, status := .Running, updated_at := now }) := by
  unfold TimerManager.resume Storage.load_active_timer
  simp only [ht, hp]
  rw [if_neg (by simp [hs])]

theorem stop_disk_cases (disk : Disk) (now : OffsetDateTime) (mtime : Nat) :
    (TimerManager.stop disk now mtime).1 = disk ∨
    ((TimerManager.stop disk now mtime).1).timerFile = none := by
  rcases ht : disk.timerFile with _ | t
  · rw [stop_eval_none disk now mtime ht]
    exact Or.inl rfl
  · rcases hsid : t.source_record_id with _ | sid
    · rcases htw : TimerManager.to_work_record (stoppedOf t now) with e | wr0
      · rw [stop_eval_insert_none_err disk t now mtime e ht hsid htw]
        exact Or.inl rfl
      · rw [stop_eval_insert_none disk t now mtime wr0 ht hsid htw]
        exact Or.inr rfl
    · rcases hget : (Storage.load disk
          (t.source_record_date.getD t.start_time.date)).work_records.get sid
        with _ | r
      · rcases htw : TimerManager.to_work_record (stoppedOf t now) with e | wr0
        · rw [stop_eval_insert_notfound_err disk t now mtime sid e ht hsid hget htw]
          exact Or.inl rfl
        · rw [stop_eval_insert_notfound disk t now mtime sid wr0 ht hsid hget htw]
          exact Or.inr rfl
      · rcases htp : TimePoint.new now.hour now.minute with e | tp
        · rw [stop_eval_found_badtime disk t now mtime sid r e ht hsid hget htp]
          exact Or.inl rfl
        · rcases htw : TimerManager.to_work_record (stoppedOf t now) with e | wr0
          · rw [stop_eval_found_err disk t now mtime sid r tp e ht hsid hget htp htw]
            exact Or.inr rfl
          · rw [stop_eval_found disk t now mtime sid r tp wr0 ht hsid hget htp htw]
            exact Or.inr rfl

theorem timerOp_preserves_not_stopped (disk : Disk) (op : TimerOp)
    (hinv : ∀ t, disk.timerFile = some t → t.status ≠ .Stopped) :
    ∀ t, ((op.apply disk)).timerFile = some t → t.status ≠ .Stopped := by
  cases op with
  | start now name desc si sd =>
    intro t ht
    simp only [TimerOp.apply] at ht
    rcases h : disk.timerFile with _ | t0
    · unfold TimerManager.start Storage.load_active_timer at ht
      rw [if_neg (by simp [h])] at ht
      simp only [Storage.save_active_timer] at ht
      have heq := Option.some.inj ht
      rw [← heq]
      simp
    · unfold TimerManager.start Storage.load_active_timer at ht
      rw [if_pos (by simp [h])] at ht
      exact hinv t ht
  | pause now =>
    intro t ht
    simp only [TimerOp.apply] at ht
    rcases h : disk.timerFile with _ | t0
    · rw [pause_eval_none disk now h] at ht
      exact hinv t ht
    · rcases hs : t0.status with _ | _ | _
      · rw [pause_eval_running disk now t0 h hs] at ht
        simp only [Storage.save_active_timer] at ht
        have heq := Option.some.inj ht
        rw [← heq]
        simp [pausedTimer]
      · rw [pause_eval_paused disk now t0 h hs] at ht
        exact hinv t ht
      · rw [pause_eval_stopped disk now t0 h hs] at ht
        exact hinv t ht
  | resume now =>
    intro t ht
    simp only [TimerOp.apply] at ht
    rcases h : disk.timerFile with _ | t0
    · rw [resume_eval_none disk now h] at ht
      exact hinv t ht
    · by_cases hs : t0.status = .Paused
      · rcases hp : t0.paused_at with _ | p
        · rw [resume_eval_paused_nopa disk now t0 h hs hp] at ht
          simp only [Storage.save_active_timer] at ht
          have heq := Option.some.inj ht
          rw [← heq]
          simp
        · rw [resume_eval_paused disk now t0 p h hs hp] at ht
          simp only [Storage.save_active_timer] at ht
          have heq := Option.some.inj ht
          rw [← heq]
          simp [resumedTimer]
      · rw [resume_eval_notpaused disk now t0 h hs] at ht
        exact hinv t ht
  | stop now mtime =>
    intro t ht
    simp only [TimerOp.apply] at ht
    rcases stop_disk_cases disk now mtime with hcase | hcase
    · rw [hcase] at ht
      exact hinv t ht
    · rw [hcase] at ht
      exact Option.noConfusion ht

theorem applyTimerOps_preserves_not_stopped (ops : List TimerOp) :
    ∀ disk : Disk, (∀ t, disk.timerFile = some t → t.status ≠ .Stopped) →
    ∀ t, (applyTimerOps disk ops).timerFile = some t → t.status ≠ .Stopped := by
  induction ops with
  | nil => exact fun disk hinv => hinv
  | cons op rest ih =>
    intro disk hinv
    exact ih (op.apply disk) (timerOp_preserves_not_stopped disk op hinv)

/-- C8: starting from a state with no active-timer file, no sequence of
`start`/`pause`/`resume`/`stop` operations can leave a persisted timer file
whose status is `Stopped` — `Stopped` exists only transiently inside `stop`,
which deletes the file before returning. -/
theorem persisted_timer_never_stopped (ops : List TimerOp) (disk0 : Disk)
    (h0 : disk0.timerFile = none) :
    statusOfTimerFile (applyTimerOps disk0 ops) ≠ some .Stopped := by
  have hinv0 : ∀ t, disk0.timerFile = some t → t.status ≠ .Stopped := by
    intro t ht
    rw [h0] at ht
    exact Option.noConfusion ht
  have hpres := applyTimerOps_preserves_not_stopped ops disk0 hinv0
  intro hcontra
  unfold statusOfTimerFile at hcontra
  rcases hf : (applyTimerOps disk0 ops).timerFile with _ | t
  · rw [hf] at hcontra
    exact Option.noConfusion hcontra
  · rw [hf] at hcontra
    simp only [Option.map] at hcontra
    exact hpres t hf (Option.some.inj hcontra)

/-- Witness for C8: a concrete start/pause/resume/stop run from the empty
disk, and a run that ends mid-lifecycle while paused. -/
theorem persisted_timer_never_stopped_witness :
    statusOfTimerFile (applyTimerOps emptyDisk
      [.start w3Now "Work" none none none, .pause w3Now, .resume w3Now,
       .stop w3Now 9]) ≠ some .Stopped ∧
    statusOfTimerFile (applyTimerOps emptyDisk
      [.start w3Now "Work" none none none, .pause w3Now]) ≠ some .Stopped :=
  ⟨persisted_timer_never_stopped _ emptyDisk rfl,
   persisted_timer_never_stopped _ emptyDisk rfl⟩

/-! ### C1: stopping a timer -/

/-- The day file `stop` targets: `source_record_date` when present, else the
timer's start date. -/
def targetDateOf (timer : TimerState) : Date :=
  timer.source_record_date.getD timer.start_time.date

theorem Storage.load_clear (disk : Disk) (date : Date) :
    Storage.load (Storage.clear_active_timer disk) date = Storage.load disk date :=
  rfl

theorem Storage.get_file_modified_time_clear (disk : Disk) (date : Date) :
    Storage.get_file_modified_time (Storage.clear_active_timer disk) date
      = Storage.get_file_modified_time disk date :=
  rfl

/-- C1: stopping a persisted active timer targets the day file named by
`source_record_date` (else the start date); when `source_record_id` is
present and found there it updates only that record's `end` time and
recomputed duration in place, leaving the record count unchanged; when the
id is absent from the day, or no id was recorded, it inserts a new record
carrying the day's `next_id`; it saves the day file (whose mtime becomes the
write's) and deletes the active-timer file. -/
theorem stop_timer_spec (disk : Disk) (timer : TimerState) (now : OffsetDateTime)
    (mtime : Nat)
    (htimer : disk.timerFile = some timer)
    (hnh : now.hour < 24) (hnm : now.minute < 60)
    (hsh : timer.start_time.hour < 24) (hsm : timer.start_time.minute < 60)
    (hwf : (Storage.load disk (targetDateOf timer)).date = targetDateOf timer) :
    (∃ wr, (TimerManager.stop disk now mtime).2 = .ok wr) ∧
    ((TimerManager.stop disk now mtime).1).timerFile = none ∧
    Storage.get_file_modified_time (TimerManager.stop disk now mtime).1
      (targetDateOf timer) = some mtime ∧
    (∀ sid r, timer.source_record_id = some sid →
      (Storage.load disk (targetDateOf timer)).work_records.get sid = some r →
      (Storage.load (TimerManager.stop disk now mtime).1
          (targetDateOf timer)).work_records.length
        = (Storage.load disk (targetDateOf timer)).work_records.length ∧
      (Storage.load (TimerManager.stop disk now mtime).1
          (targetDateOf timer)).work_records.get sid
        = some (WorkRecord.update_duration { r with «end» := ⟨now.hour, now.minute⟩ }) ∧
      (∀ j, j ≠ sid →
        (Storage.load (TimerManager.stop disk now mtime).1
            (targetDateOf timer)).work_records.get j
          = (Storage.load disk (targetDateOf timer)).work_records.get j) ∧
      (Storage.load (TimerManager.stop disk now mtime).1
          (targetDateOf timer)).last_id
        = (Storage.load disk (targetDateOf timer)).last_id) ∧
    (∀ sid, timer.source_record_id = some sid →
      (Storage.load disk (targetDateOf timer)).work_records.get sid = none →
      ∃ rec, Storage.load (TimerManager.stop disk now mtime).1 (targetDateOf timer)
          = ((Storage.load disk (targetDateOf timer)).next_id).2.add_record rec ∧
        rec.id = ((Storage.load disk (targetDateOf timer)).next_id).1) ∧
    (timer.source_record_id = none →
      ∃ rec, Storage.load (TimerManager.stop disk now mtime).1 (targetDateOf timer)
          = ((Storage.load disk (targetDateOf timer)).next_id).2.add_record rec ∧
        rec.id = ((Storage.load disk (targetDateOf timer)).next_id).1) := by
  unfold targetDateOf at hwf ⊢
  have htw := to_work_record_stopped timer now hsh hsm hnh hnm
  have htp := TimePoint.new_ok now.hour now.minute hnh hnm
  rcases hsid : timer.source_record_id with _ | sid
  · have heval := stop_eval_insert_none disk timer now mtime _ htimer hsid htw
    have hload : Storage.load (TimerManager.stop disk now mtime).1
        (timer.source_record_date.getD timer.start_time.date)
        = stopInsertDay disk timer
            { WorkRecord.new 1 timer.task_name
                ⟨timer.start_time.hour, timer.start_time.minute⟩
                ⟨now.hour, now.minute⟩ with
              description := timer.description.getD "" } := by
      rw [heval]
      exact Storage.load_save_of disk _ mtime _ hwf
    refine ⟨⟨_, by rw [heval]⟩, by rw [heval]; rfl, ?_, ?_, ?_, ?_⟩
    · rw [heval]
      exact Storage.get_file_modified_time_save_of disk _ mtime _ hwf
    · intro sid r hsid' _
      exact Option.noConfusion hsid'
    · intro sid hsid' _
      exact Option.noConfusion hsid'
    · intro _
      exact ⟨_, hload, rfl⟩
  · rcases hget : (Storage.load disk
        (timer.source_record_date.getD timer.start_time.date)).work_records.get sid
      with _ | r
    · have heval := stop_eval_insert_notfound disk timer now mtime sid _
        htimer hsid hget htw
      have hload : Storage.load (TimerManager.stop disk now mtime).1
          (timer.source_record_date.getD timer.start_time.date)
          = stopInsertDay disk timer
              { WorkRecord.new 1 timer.task_name
                  ⟨timer.start_time.hour, timer.start_time.minute⟩
                  ⟨now.hour, now.minute⟩ with
                description := timer.description.getD "" } := by
        rw [heval]
        exact Storage.load_save_of disk _ mtime _ hwf
      refine ⟨⟨_, by rw [heval]⟩, by rw [heval]; rfl, ?_, ?_, ?_, ?_⟩
      · rw [heval]
        exact Storage.get_file_modified_time_save_of disk _ mtime _ hwf
      · intro sid' r' hsid' hget'
        obtain rfl : sid = sid' := Option.some.inj hsid'
        rw [hget] at hget'
        exact Option.noConfusion hget'
      · intro sid' hsid' hget'
        exact ⟨_, hload, rfl⟩
      · intro hcontra
        exact Option.noConfusion hcontra
    · have heval := stop_eval_found disk timer now mtime sid r
        ⟨now.hour, now.minute⟩ _ htimer hsid hget htp htw
      have hload : Storage.load (TimerManager.stop disk now mtime).1
          (timer.source_record_date.getD timer.start_time.date)
          = stopFoundDay disk timer sid ⟨now.hour, now.minute⟩ := by
        rw [heval]
        exact Storage.load_save_of disk _ mtime _ hwf
      refine ⟨⟨_, by rw [heval]⟩, by rw [heval]; rfl, ?_, ?_, ?_, ?_⟩
      · rw [heval]
        exact Storage.get_file_modified_time_save_of disk _ mtime _ hwf
      · intro sid' r' hsid' hget'
        obtain rfl : sid = sid' := Option.some.inj hsid'
        rw [hget] at hget'
        obtain rfl : r = r' := Option.some.inj hget'
        rw [hload]
        simp only [stopFoundDay]
        exact ⟨RecordMap.length_modify _ _ _,
          RecordMap.get_modify_self _ _ _ r hget,
          fun j hj => RecordMap.get_modify_other _ _ _ _ hj, trivial⟩
      · intro sid' hsid' hget'
        obtain rfl : sid = sid' := Option.some.inj hsid'
        rw [hget] at hget'
        exact Option.noConfusion hget'
      · intro hcontra
        exact Option.noConfusion hcontra

/-- Scenario B's existing record: id 5, 09:00 → 10:00. -/
def scenarioBRecord : WorkRecord := WorkRecord.new 5 "Fix bug" ⟨9, 0⟩ ⟨10, 0⟩

/-- Scenario B's day: exactly that one record. -/
def scenarioBDay : DayData := (DayData.new c2Date).add_record scenarioBRecord

/-- Scenario B's timer: continuing record 5 of that day. -/
def scenarioBTimer : TimerState :=
  startedTimer ⟨c2Date, 11, 30, 0⟩ "Fix bug" none (some 5) (some c2Date)

/-- Scenario B's disk: the day file plus the persisted timer. -/
def scenarioBDisk : Disk := ⟨[(c2Date, scenarioBDay, 3)], some scenarioBTimer⟩

/-- The stop instant in the C1 witness: 12:45. -/
def bNow : OffsetDateTime := ⟨c2Date, 12, 45, 4500000000000⟩

/-- Witness for C1 at Scenario B: stopping deletes the timer file, keeps
exactly one record, and advances record 5's end to 12:45. -/
theorem stop_timer_spec_witness :
    ((TimerManager.stop scenarioBDisk bNow 7).1).timerFile = none ∧
    (Storage.load (TimerManager.stop scenarioBDisk bNow 7).1
        (targetDateOf scenarioBTimer)).work_records.length
      = (Storage.load scenarioBDisk (targetDateOf scenarioBTimer)).work_records.length ∧
    (Storage.load (TimerManager.stop scenarioBDisk bNow 7).1
        (targetDateOf scenarioBTimer)).work_records.get 5
      = some (WorkRecord.update_duration { scenarioBRecord with «end» := ⟨12, 45⟩ }) := by
  have h := stop_timer_spec scenarioBDisk scenarioBTimer bNow 7 rfl
    (by decide) (by decide) (by decide) (by decide) (by decide)
  have h4 := h.2.2.2.1 5 scenarioBRecord rfl (by decide)
  exact ⟨h.2.1, h4.1, h4.2.1⟩

end WorkTuimer
